import Mathlib

/-!
Verification of the `gym_table` grid-world environment.

Shallow embedding of `src/gym_table/utils.py`, `src/gym_table/grid_objects.py`
and `src/gym_table/envs/table_env.py`.  Mutable Python objects become pure
values: methods that mutate state return the updated state.  The write-only
position-metadata fields of `WorldObj` (`init_pos`, `cur_pos`) are never read
by any code in the repository and are omitted from the embedding.  The `Grid`
class is referenced by the repository but its source file is not part of it;
its operations are modelled from the specification where needed (each such
definition is marked `Modelled from the spec:`).
-/

/-- `AGENT_VIEW_SIZE` from `utils.py`: number of cells (width and height) in
the agent view. -/
def AGENT_VIEW_SIZE : Nat := 7

/-- The six color names of `COLOR_TO_IDX` in `utils.py`. -/
inductive Color where
  | red
  | green
  | blue
  | purple
  | yellow
  | grey
deriving DecidableEq, Repr

/-- World objects of `grid_objects.py` as a closed variant.  `Goal` is always
green and carries no extra data; `Door` carries its `is_open`/`is_locked`
flags; `Box` owns an optional contained object.  `lava` has no class in
`grid_objects.py` (only a type id in `utils.py`), so it behaves as a bare
`WorldObj` with the base-class defaults. -/
inductive WorldObj where
  | wall (color : Color)
  | floor (color : Color)
  | door (color : Color) ( is_open : Bool) ( is_locked : Bool)
  | key (color : Color)
  | ball (color : Color)
  | box (color : Color) (contains : Option WorldObj)
  | goal
  | lava

/-- The `type` string attribute set in each object constructor
(keys of `OBJECT_TO_IDX` in `utils.py`). -/
def WorldObj.type : WorldObj → String
  | .wall _ => "wall"
  | .floor _ => "floor"
  | .door _ _ _ => "door"
  | .key _ => "key"
  | .ball _ => "ball"
  | .box _ _ => "box"
  | .goal => "goal"
  | .lava => "lava"

/-- `can_overlap`: base class returns `False`; overridden to `True` by `Goal`
and `Floor`, and by `Door` when `is_open`. -/
def WorldObj.can_overlap : WorldObj → Bool
  | .floor _ => true
  | .door _ op _ => op
  | .goal => true
  | _ => false

/-- `can_pickup`: base class returns `False`; overridden to `True` by `Key`,
`Ball` and `Box`. -/
def WorldObj.can_pickup : WorldObj → Bool
  | .key _ => true
  | .ball _ => true
  | .box _ _ => true
  | _ => false

/-- `see_behind`: base class returns `True`; `Wall` returns `False` and
`Door` returns `is_open`. -/
def WorldObj.see_behind : WorldObj → Bool
  | .wall _ => false
  | .door _ op _ => op
  | _ => true

/-- `toggle(self, env, pos)`.  The Python method may mutate the toggled
object in place (`Door`) or write the object's grid cell (`Box` replaces
itself by its contents); in both cases the net effect on the world is the
new content of the toggled cell, returned here next to the boolean result.
`env` enters only through `env.carrying`, passed explicitly. -/
def WorldObj.toggle (o : WorldObj) (carrying : Option WorldObj) :
    Option WorldObj × Bool :=
  match o with
  | .door c op lk =>
    if lk then
      match carrying with
      | some (.key kc) =>
        if kc = c then (some (.door c true false), true) else (some o, false)
      | _ => (some o, false)
    else (some (.door c (!op) lk), true)
  | .box _ contents => (contents, true)
  | _ => (some o, false)

/-- Modelled from the spec: the `Grid` class (referenced by the repository,
source not included).  Dense 2D array indexed `[x][y]`, `x` in `[0,width)`,
`y` in `[0,height)`; stored row-by-`x` flattened as `x * height + y`. -/
structure Grid where
  width : Nat
  height : Nat
  cells : List (Option WorldObj)

/-- Modelled from the spec: `get(x, y)` is bounds-checked and out-of-bounds
access is a programming error (fails fast); `none` is that error. -/
def Grid.get (g : Grid) (i j : Int) : Option (Option WorldObj) :=
  if 0 ≤ i ∧ i < (g.width : Int) ∧ 0 ≤ j ∧ j < (g.height : Int) then
    some (g.cells.getD (i.toNat * g.height + j.toNat) none)
  else
    none

/-- Modelled from the spec: `set(x, y, object)`, bounds-checked.  Every call
site in the repository is guarded by a successful in-bounds `get` at the same
position, so the out-of-bounds error case cannot arise and the update is the
identity there. -/
def Grid.set (g : Grid) (i j : Int) (v : Option WorldObj) : Grid :=
  if 0 ≤ i ∧ i < (g.width : Int) ∧ 0 ≤ j ∧ j < (g.height : Int) then
    { g with cells := g.cells.set (i.toNat * g.height + j.toNat) v }
  else
    g

/-- Modelled from the spec: `slice(top_x, top_y, w, h)` extracts a `w×h`
sub-grid anchored at `(top_x, top_y)` in absolute coordinates; positions
outside the source grid's bounds are filled with an explicit wall sentinel
object. -/
def Grid.slice (g : Grid) (topX topY : Int) (w h : Nat) : Grid :=
  { width := w
    height := h
    cells := (List.range (w * h)).map (fun k =>
      let i := k / h
      let j := k % h
      match g.get (topX + (i : Int)) (topY + (j : Int)) with
      | some c => c
      | none => some (.wall .grey)) }

/-- Modelled from the spec: `rotate_left()` returns a new grid rotated 90°
counter-clockwise in the grid's own axis convention: cell `(i, j)` of the
result is cell `(width - 1 - j, i)` of the source. -/
def Grid.rotate_left (g : Grid) : Grid :=
  { width := g.height
    height := g.width
    cells := (List.range (g.height * g.width)).map (fun k =>
      let i := k / g.width
      let j := k % g.width
      (g.get ((g.width : Int) - 1 - (j : Int)) (i : Int)).getD none) }

/-- Whether the cell at `(i, j)` lets visibility through: empty cells do,
occupied cells defer to `see_behind`. -/
def Grid.seeThroughAt (g : Grid) (i j : Nat) : Bool :=
  match (g.get (i : Int) (j : Int)).getD none with
  | none => true
  | some o => o.see_behind

/-- Modelled from the spec: the row-by-row visibility recurrence of
`process_vis`.  `visAux g ax ay k i` decides visibility of the cell in
column `i` of the row `k` steps away (toward smaller `y`) from the agent's
row `ay`.  Row 0 holds only the agent's own cell; a cell of a farther row is
visible if one of its three candidate predecessors one row closer to the
agent (directly behind, or diagonal) was visible and see-through. -/
def Grid.visAux (g : Grid) (ax ay : Nat) : Nat → Nat → Bool
  | 0, i => decide (i = ax)
  | k + 1, i =>
    let prev : Nat → Bool := fun i2 =>
      g.visAux ax ay k i2 && g.seeThroughAt i2 (ay - k)
    prev i || (decide (0 < i) && prev (i - 1)) ||
      (decide (i + 1 < g.width) && prev (i + 1))

/-- Modelled from the spec: `process_vis(agent_viewpoint)` computes for every
cell whether it is visible from the agent's fixed in-view position, scanning
rows from the agent's row outward. -/
def Grid.process_vis (g : Grid) (agent_pos : Nat × Nat) : Nat → Nat → Bool :=
  fun i j =>
    if j ≤ agent_pos.2 then g.visAux agent_pos.1 agent_pos.2 (agent_pos.2 - j) i
    else false

/-- `DIR_TO_VEC` from `utils.py`: direction index to unit vector
(right, down, left, up). -/
def DIR_TO_VEC : List (Int × Int) := [(1, 0), (0, 1), (-1, 0), (0, -1)]

/-- The environment state owned by `TableEnv`: the grid, the agent pose and
inventory, the step counter, and the configuration fields that the step and
observation logic reads.  (`env.width`/`env.height` duplicate the grid's own
dimensions and are only used at generation time.) -/
structure EnvState where
  grid : Grid
  agent_pos : Int × Int
  agent_dir : Nat
  carrying : Option WorldObj
  step_count : Nat
  max_steps : Nat
  see_through_walls : Bool

/-- The action enumeration `TableEnv.Actions`. -/
inductive Actions where
  | left
  | right
  | forward
  | pickup
  | drop
  | toggle
  | done
deriving DecidableEq, Repr

/-- `dir_vec`: the agent's forward unit vector, `DIR_TO_VEC[agent_dir]`.
The source asserts `0 <= agent_dir < 4` before indexing; outside that range
the embedding returns a junk vector. -/
def EnvState.dir_vec (s : EnvState) : Int × Int :=
  DIR_TO_VEC.getD s.agent_dir (0, 0)

/-- `right_vec`: `(-dy, dx)` for `dir_vec = (dx, dy)`. -/
def EnvState.right_vec (s : EnvState) : Int × Int :=
  (-s.dir_vec.2, s.dir_vec.1)

/-- `front_pos`: `agent_pos + dir_vec`. -/
def EnvState.front_pos (s : EnvState) : Int × Int :=
  (s.agent_pos.1 + s.dir_vec.1, s.agent_pos.2 + s.dir_vec.2)

/-- `get_view_coords(i, j)`: translate and rotate absolute grid coordinates
into the agent's view; the result may be negative or outside the view. -/
def EnvState.get_view_coords (s : EnvState) (i j : Int) : Int × Int :=
  let ax := s.agent_pos.1
  let ay := s.agent_pos.2
  let dx := s.dir_vec.1
  let dy := s.dir_vec.2
  let rx := s.right_vec.1
  let ry := s.right_vec.2
  let sz : Int := AGENT_VIEW_SIZE
  let hs : Int := AGENT_VIEW_SIZE / 2
  let tx := ax + dx * (sz - 1) - rx * hs
  let ty := ay + dy * (sz - 1) - ry * hs
  let lx := i - tx
  let ly := j - ty
  (rx * lx + ry * ly, -(dx * lx + dy * ly))

/-- `relative_coords(x, y)`: `get_view_coords` filtered to the valid view
range, `none` outside it. -/
def EnvState.relative_coords (s : EnvState) (x y : Int) : Option (Int × Int) :=
  let v := s.get_view_coords x y
  if v.1 < 0 ∨ v.2 < 0 ∨ (AGENT_VIEW_SIZE : Int) ≤ v.1 ∨
      (AGENT_VIEW_SIZE : Int) ≤ v.2 then
    none
  else
    some v

/-- `get_view_exts()`: extents of the square of tiles visible to the agent,
four cases by direction (the source asserts the direction is valid). -/
def EnvState.get_view_exts (s : EnvState) : Int × Int × Int × Int :=
  let hs : Int := AGENT_VIEW_SIZE / 2
  let sz : Int := AGENT_VIEW_SIZE
  let top : Int × Int :=
    match s.agent_dir with
    | 0 => (s.agent_pos.1, s.agent_pos.2 - hs)
    | 1 => (s.agent_pos.1 - hs, s.agent_pos.2)
    | 2 => (s.agent_pos.1 - sz + 1, s.agent_pos.2 - hs)
    | 3 => (s.agent_pos.1 - hs, s.agent_pos.2 - sz + 1)
    | _ => (0, 0)
  (top.1, top.2, top.1 + sz, top.2 + sz)

/-- `_reward()`: the success reward `1 - 0.9 * (step_count / max_steps)`,
with Python's float arithmetic modelled over `ℚ`. -/
def EnvState.reward_value (s : EnvState) : ℚ :=
  1 - (9 / 10) * ((s.step_count : ℚ) / (s.max_steps : ℚ))

/-- `TableEnv.step(action)`.  The step counter is incremented first; the
front cell is read (bounds-checked — a front position outside the grid is a
fail-fast error, the outer `none`); the action is dispatched; finally
termination is forced when the counter has reached `max_steps`.  The
observation returned by the Python method is a pure function of the
resulting state (`gen_obs`) and is not duplicated here. -/
def EnvState.step (s0 : EnvState) (a : Actions) : Option (EnvState × ℚ × Bool) :=
  let s := { s0 with step_count := s0.step_count + 1 }
  let fwd_pos := s.front_pos
  match s.grid.get fwd_pos.1 fwd_pos.2 with
  | none => none
  | some fwd_cell =>
    let out : EnvState × ℚ × Bool :=
      match a with
      | .left =>
        ({ s with agent_dir := if s.agent_dir = 0 then 3 else s.agent_dir - 1 },
          0, false)
      | .right => ({ s with agent_dir := (s.agent_dir + 1) % 4 }, 0, false)
      | .forward =>
        let canGo : Bool :=
          match fwd_cell with
          | none => true
          | some c => c.can_overlap
        let s1 := if canGo then { s with agent_pos := fwd_pos } else s
        let isGoal : Bool :=
          match fwd_cell with
          | none => false
          | some c => decide (c.type = "goal")
        let isLava : Bool :=
          match fwd_cell with
          | none => false
          | some c => decide (c.type = "lava")
        (s1, if isGoal then s1.reward_value else 0, isGoal || isLava)
      | .pickup =>
        match fwd_cell with
        | some c =>
          if c.can_pickup then
            match s.carrying with
            | none =>
              ({ s with carrying := some c,
                        grid := s.grid.set fwd_pos.1 fwd_pos.2 none },
                0, false)
            | some _ => (s, 0, false)
          else (s, 0, false)
        | none => (s, 0, false)
      | .drop =>
        match fwd_cell with
        | none =>
          match s.carrying with
          | some c =>
            ({ s with grid := s.grid.set fwd_pos.1 fwd_pos.2 (some c),
                      carrying := none },
              0, false)
          | none => (s, 0, false)
        | some _ => (s, 0, false)
      | .toggle =>
        match fwd_cell with
        | some c =>
          let t := c.toggle s.carrying
          ({ s with grid := s.grid.set fwd_pos.1 fwd_pos.2 t.1 }, 0, false)
        | none => (s, 0, false)
      | .done => (s, 0, false)
    some (out.1, out.2.1,
      if s.max_steps ≤ s.step_count then true else out.2.2)

/-- Iterate `rotate_left` (`for i in range(agent_dir + 1)`). -/
def Grid.rotateN (g : Grid) : Nat → Grid
  | 0 => g
  | n + 1 => (g.rotateN n).rotate_left

/-- `gen_obs_grid()`: slice the agent's view extents out of the world grid,
rotate it `agent_dir + 1` times, compute the visibility mask (all-ones when
`see_through_walls`), and overwrite the agent's own in-view slot with the
carried object (or clear it). -/
def EnvState.gen_obs_grid (s : EnvState) : Grid × (Nat → Nat → Bool) :=
  let e := s.get_view_exts
  let g0 := s.grid.slice e.1 e.2.1 AGENT_VIEW_SIZE AGENT_VIEW_SIZE
  let g1 := g0.rotateN (s.agent_dir + 1)
  let vis_mask : Nat → Nat → Bool :=
    if !s.see_through_walls then
      g1.process_vis (AGENT_VIEW_SIZE / 2, AGENT_VIEW_SIZE - 1)
    else
      fun _ _ => true
  let apos : Int × Int := ((g1.width : Int) / 2, (g1.height : Int) - 1)
  let g2 :=
    match s.carrying with
    | some c => g1.set apos.1 apos.2 (some c)
    | none => g1.set apos.1 apos.2 none
  (g2, vis_mask)

/-! ### Concrete test fixtures -/

/-- A 3×3 grid (flat index `x*3+y`) with a wall at `(0, 1)`, a key at
`(1, 0)` and a goal at `(2, 1)`. -/
def gridGoal : Grid :=
  ⟨3, 3, [none, some (.wall .grey), none, some (.key .blue), none, none,
    none, some .goal, none]⟩

/-- Agent at the center of `gridGoal`, facing right toward the goal. -/
def sGoal : EnvState :=
  { grid := gridGoal
    agent_pos := (1, 1)
    agent_dir := 0
    carrying := none
    step_count := 0
    max_steps := 100
    see_through_walls := false }

/-- Agent at the center of `gridGoal`, facing left toward the wall. -/
def sWall : EnvState := { sGoal with agent_dir := 2 }

/-- Agent at the center of `gridGoal`, facing up toward the key. -/
def sKey : EnvState := { sGoal with agent_dir := 3 }

/-- Agent facing the key while already carrying a ball. -/
def sCarry : EnvState :=
  { sGoal with agent_dir := 3, carrying := some (.ball .red) }

/-! ### The agent view transform (C4) -/

/-- For a valid direction, `get_view_coords` of the agent's forward cell is
the constant `(3, 5)`. -/
theorem front_view_coords (s : EnvState) (h : s.agent_dir < 4) :
    s.get_view_coords s.front_pos.1 s.front_pos.2 = (3, 5) := by
  have h4 : s.agent_dir = 0 ∨ s.agent_dir = 1 ∨ s.agent_dir = 2 ∨
      s.agent_dir = 3 := by omega
  rcases h4 with h0 | h0 | h0 | h0 <;>
  · have hd : s.dir_vec = DIR_TO_VEC.getD s.agent_dir (0, 0) := rfl
    rw [h0] at hd
    simp only [EnvState.get_view_coords, EnvState.front_pos, EnvState.right_vec,
      hd, DIR_TO_VEC, AGENT_VIEW_SIZE, List.getD]
    norm_num

/-- C4: for every agent position and every direction `d < 4`,
`relative_coords` applied to the agent's forward cell returns the same fixed
in-view coordinate `(3, 5)`, independent of position and direction. -/
theorem relative_coords_front_fixed (s : EnvState) (h : s.agent_dir < 4) :
    s.relative_coords s.front_pos.1 s.front_pos.2 = some (3, 5) := by
  have hv := front_view_coords s h
  simp only [EnvState.relative_coords, hv]
  norm_num [AGENT_VIEW_SIZE]

/-- Witness for C4 at a concrete state. -/
theorem relative_coords_front_fixed_witness :
    sGoal.agent_dir < 4 ∧
      sGoal.relative_coords sGoal.front_pos.1 sGoal.front_pos.2 = some (3, 5) :=
  ⟨by decide, relative_coords_front_fixed sGoal (by decide)⟩

/-! ### Locked doors (C5) -/

/-- C5: toggling a locked, closed door succeeds — returning `true` and
leaving the door open and unlocked — exactly when the agent carries a key of
the door's color; with any other inventory (nothing, a non-key object, or a
key of another color) it returns `false` and leaves the door locked and
closed. -/
theorem door_toggle_locked (c : Color) (carrying : Option WorldObj) :
    ((WorldObj.door c false true).toggle carrying =
        (some (WorldObj.door c true false), true) ↔
      carrying = some (WorldObj.key c)) ∧
    (carrying ≠ some (WorldObj.key c) →
      (WorldObj.door c false true).toggle carrying =
        (some (WorldObj.door c false true), false)) := by
  rcases carrying with _ | o
  · simp [WorldObj.toggle]
  · cases o with
    | key kc =>
      by_cases hk : kc = c
      · subst hk
        simp [WorldObj.toggle]
      · simp [WorldObj.toggle, hk]
    | wall c2 => simp [WorldObj.toggle]
    | floor c2 => simp [WorldObj.toggle]
    | door c2 op lk => simp [WorldObj.toggle]
    | ball c2 => simp [WorldObj.toggle]
    | box c2 bc => simp [WorldObj.toggle]
    | goal => simp [WorldObj.toggle]
    | lava => simp [WorldObj.toggle]

/-- Witness for C5: carrying a ball never unlocks a door. -/
theorem door_toggle_locked_witness :
    some (WorldObj.ball Color.blue) ≠ some (WorldObj.key Color.red) ∧
      (WorldObj.door Color.red false true).toggle
          (some (WorldObj.ball Color.blue)) =
        (some (WorldObj.door Color.red false true), false) :=
  ⟨by simp, (door_toggle_locked Color.red (some (WorldObj.ball Color.blue))).2
    (by simp)⟩

/-! ### Grid access lemmas -/

/-- In-bounds flat index bound for the `[x][y]` dense layout. -/
theorem flatIdx_lt {w h a b : Nat} (ha : a < w) (hb : b < h) :
    a * h + b < w * h := by
  calc a * h + b < a * h + h := by omega
    _ = (a + 1) * h := by ring
    _ ≤ w * h := Nat.mul_le_mul_right h ha

/-- A successful `get` certifies that the position is in bounds. -/
theorem Grid.get_some_bounds {g : Grid} {i j : Int} {v : Option WorldObj}
    (h : g.get i j = some v) :
    0 ≤ i ∧ i < (g.width : Int) ∧ 0 ≤ j ∧ j < (g.height : Int) := by
  by_contra hc
  rw [Grid.get, if_neg hc] at h
  exact Option.noConfusion h

/-- `set` preserves the grid's width. -/
theorem Grid.set_width (g : Grid) (i j : Int) (v : Option WorldObj) :
    (g.set i j v).width = g.width := by
  rw [Grid.set]; split <;> rfl

/-- `set` preserves the grid's height. -/
theorem Grid.set_height (g : Grid) (i j : Int) (v : Option WorldObj) :
    (g.set i j v).height = g.height := by
  rw [Grid.set]; split <;> rfl

/-- `set` preserves the length of the cell array. -/
theorem Grid.set_cells_length (g : Grid) (i j : Int) (v : Option WorldObj) :
    (g.set i j v).cells.length = g.cells.length := by
  rw [Grid.set]; split <;> simp

/-- Reading back a cell just written: for a dense grid (cell array of length
`width * height`) and an in-bounds position, `set` then `get` returns the
written value. -/
theorem Grid.get_set_self (g : Grid) {i j : Int} {v : Option WorldObj}
    (w0 : Option WorldObj)
    (hlen : g.cells.length = g.width * g.height)
    (h : g.get i j = some v) :
    (g.set i j w0).get i j = some w0 := by
  obtain ⟨h1, h2, h3, h4⟩ := Grid.get_some_bounds h
  have hi : i.toNat < g.width := by omega
  have hj : j.toNat < g.height := by omega
  have hb : i.toNat * g.height + j.toNat < g.cells.length := by
    rw [hlen]; exact flatIdx_lt hi hj
  rw [Grid.set, if_pos ⟨h1, h2, h3, h4⟩, Grid.get,
    if_pos (⟨h1, h2, h3, h4⟩ :
      0 ≤ i ∧ i < (g.width : Int) ∧ 0 ≤ j ∧ j < (g.height : Int))]
  congr 1
  rw [List.getD_eq_getElem _ _ (by simpa using hb)]
  simp

/-! ### Step-equation lemmas -/

/-- Bumping the step counter does not move the agent: `front_pos` is
unchanged. -/
theorem EnvState.front_pos_bump (s : EnvState) (n : Nat) :
    ({ s with step_count := n } : EnvState).front_pos = s.front_pos := rfl

/-- `step(forward)` onto a goal cell: the agent moves onto the goal (goals
are overlap-capable), the episode terminates, and the reward is
`1 - 0.9 * (step_count / max_steps)` computed from the already-incremented
step counter. -/
theorem step_forward_goal (s : EnvState)
    (hfwd : s.grid.get s.front_pos.1 s.front_pos.2 = some (some .goal)) :
    s.step .forward =
      some ({ s with agent_pos := s.front_pos, step_count := s.step_count + 1 },
        1 - (9 / 10 : ℚ) * (((s.step_count + 1 : ℕ) : ℚ) / ((s.max_steps : ℕ) : ℚ)),
        true) := by
  simp only [EnvState.step, EnvState.front_pos_bump, hfwd]
  simp [WorldObj.can_overlap, WorldObj.type, EnvState.reward_value]

/-- Witness for `step_forward_goal` (claim C1): from a fresh episode with
`max_steps = 100`, reaching the goal on the first step yields reward
`0.991`. -/
theorem step_forward_goal_witness :
    sGoal.step .forward =
      some ({ sGoal with agent_pos := sGoal.front_pos, step_count := 0 + 1 },
        1 - (9 / 10 : ℚ) * (((0 + 1 : ℕ) : ℚ) / ((100 : ℕ) : ℚ)), true) ∧
    1 - (9 / 10 : ℚ) * (((0 + 1 : ℕ) : ℚ) / ((100 : ℕ) : ℚ)) = 991 / 1000 :=
  ⟨step_forward_goal sGoal rfl, by norm_num⟩

/-- `step(forward)` into a wall: the forward cell is neither empty nor
overlap-capable, so the agent does not move; walls are never
overlap-capable.  Only the step counter changes, and termination occurs
only by timeout. -/
theorem step_forward_wall (s : EnvState) (c : Color)
    (hfwd : s.grid.get s.front_pos.1 s.front_pos.2 = some (some (.wall c))) :
    (WorldObj.wall c).can_overlap = false ∧
    s.step .forward = some ({ s with step_count := s.step_count + 1 }, 0,
      decide (s.max_steps ≤ s.step_count + 1)) := by
  refine ⟨rfl, ?_⟩
  simp only [EnvState.step, EnvState.front_pos_bump, hfwd]
  simp [WorldObj.can_overlap, WorldObj.type]

/-- Witness for `step_forward_wall` (claim C8) at a concrete state. -/
theorem step_forward_wall_witness :
    sWall.grid.get sWall.front_pos.1 sWall.front_pos.2 =
      some (some (.wall .grey)) ∧
    sWall.step .forward =
      some ({ sWall with step_count := 0 + 1 }, 0,
        decide (sWall.max_steps ≤ 0 + 1)) :=
  ⟨rfl, (step_forward_wall sWall Color.grey rfl).2⟩

/-- `step(pickup)` with full hands: if the agent is already carrying an
object, the pickup branch is a no-op — the returned state differs from the
incoming one only in its step counter (inventory and grid unchanged), the
reward is `0`, and no error is raised (the call returns a value). -/
theorem step_pickup_carrying (s : EnvState) (o : WorldObj) (v : Option WorldObj)
    (hcar : s.carrying = some o)
    (hfwd : s.grid.get s.front_pos.1 s.front_pos.2 = some v) :
    s.step .pickup = some ({ s with step_count := s.step_count + 1 }, 0,
      decide (s.max_steps ≤ s.step_count + 1)) := by
  rcases v with _ | c
  · simp only [EnvState.step, EnvState.front_pos_bump, hfwd]
    simp
  · simp only [EnvState.step, EnvState.front_pos_bump, hfwd]
    simp [hcar]

/-- Witness for `step_pickup_carrying` (claim C7) at a concrete state. -/
theorem step_pickup_carrying_witness :
    sCarry.carrying = some (.ball .red) ∧
    sCarry.grid.get sCarry.front_pos.1 sCarry.front_pos.2 =
      some (some (.key .blue)) ∧
    sCarry.step .pickup =
      some ({ sCarry with step_count := 0 + 1 }, 0,
        decide (sCarry.max_steps ≤ 0 + 1)) :=
  ⟨rfl, rfl,
    step_pickup_carrying sCarry (.ball .red) (some (.key .blue)) rfl rfl⟩

/-- `step(pickup)` of a pickup-capable forward object with empty hands:
the object moves from the grid into the inventory. -/
theorem step_pickup_ok (s : EnvState) (c : WorldObj)
    (hcar : s.carrying = none)
    (hfwd : s.grid.get s.front_pos.1 s.front_pos.2 = some (some c))
    (hp : c.can_pickup = true) :
    s.step .pickup =
      some ({ s with
                carrying := some c
                grid := s.grid.set s.front_pos.1 s.front_pos.2 none
                step_count := s.step_count + 1 },
        0, decide (s.max_steps ≤ s.step_count + 1)) := by
  simp only [EnvState.step, EnvState.front_pos_bump, hfwd]
  simp [hcar, hp]

/-- `step(drop)` onto an empty forward cell while carrying: the carried
object moves from the inventory into the grid. -/
theorem step_drop_ok (s : EnvState) (c : WorldObj)
    (hcar : s.carrying = some c)
    (hfwd : s.grid.get s.front_pos.1 s.front_pos.2 = some none) :
    s.step .drop =
      some ({ s with
                carrying := none
                grid := s.grid.set s.front_pos.1 s.front_pos.2 (some c)
                step_count := s.step_count + 1 },
        0, decide (s.max_steps ≤ s.step_count + 1)) := by
  simp only [EnvState.step, EnvState.front_pos_bump, hfwd]
  simp [hcar]

/-- `step(pickup)` of a pickup-capable object with empty hands, followed
immediately by `step(drop)` at the unchanged facing position: the pair is an
inverse — the forward grid cell again holds the original object and the
inventory is empty again — while the step counter strictly increases by one
on each of the two calls (it is never decreased or reset mid-episode). -/
theorem step_pickup_then_drop (s : EnvState) (c : WorldObj)
    (hlen : s.grid.cells.length = s.grid.width * s.grid.height)
    (hcar : s.carrying = none)
    (hfwd : s.grid.get s.front_pos.1 s.front_pos.2 = some (some c))
    (hp : c.can_pickup = true) :
    ∃ s1 r1 d1 s2 r2 d2,
      s.step .pickup = some (s1, r1, d1) ∧
      s1.step .drop = some (s2, r2, d2) ∧
      s1.carrying = some c ∧
      s1.grid.get s.front_pos.1 s.front_pos.2 = some none ∧
      s2.grid.get s.front_pos.1 s.front_pos.2 = some (some c) ∧
      s2.carrying = none ∧
      s2.agent_pos = s.agent_pos ∧
      s2.agent_dir = s.agent_dir ∧
      s1.step_count = s.step_count + 1 ∧
      s2.step_count = s.step_count + 2 := by
  have h1 := step_pickup_ok s c hcar hfwd hp
  have hget1 : (s.grid.set s.front_pos.1 s.front_pos.2 none).get
      s.front_pos.1 s.front_pos.2 = some none :=
    Grid.get_set_self s.grid none hlen hfwd
  have hlen1 : (s.grid.set s.front_pos.1 s.front_pos.2 none).cells.length =
      (s.grid.set s.front_pos.1 s.front_pos.2 none).width *
        (s.grid.set s.front_pos.1 s.front_pos.2 none).height := by
    rw [Grid.set_cells_length, Grid.set_width, Grid.set_height]; exact hlen
  have hget2 := Grid.get_set_self _ (some c) hlen1 hget1
  exact ⟨_, _, _, _, _, _, h1, step_drop_ok _ c rfl hget1, rfl, hget1, hget2,
    rfl, rfl, rfl, rfl, rfl⟩

/-- Witness for `step_pickup_then_drop` (claim C6) at a concrete state. -/
theorem step_pickup_then_drop_witness :
    sKey.grid.cells.length = sKey.grid.width * sKey.grid.height ∧
    sKey.carrying = none ∧
    sKey.grid.get sKey.front_pos.1 sKey.front_pos.2 =
      some (some (.key .blue)) ∧
    (WorldObj.key Color.blue).can_pickup = true ∧
    (∃ s1 r1 d1 s2 r2 d2,
      sKey.step .pickup = some (s1, r1, d1) ∧
      s1.step .drop = some (s2, r2, d2) ∧
      s1.carrying = some (.key .blue) ∧
      s1.grid.get sKey.front_pos.1 sKey.front_pos.2 = some none ∧
      s2.grid.get sKey.front_pos.1 sKey.front_pos.2 =
        some (some (.key .blue)) ∧
      s2.carrying = none ∧
      s2.agent_pos = sKey.agent_pos ∧
      s2.agent_dir = sKey.agent_dir ∧
      s1.step_count = sKey.step_count + 1 ∧
      s2.step_count = sKey.step_count + 2) :=
  ⟨rfl, rfl, rfl, rfl,
    step_pickup_then_drop sKey (.key .blue) rfl rfl rfl rfl⟩

/-! ### Reward range (C2) and forced termination (C3) -/

/-- Every reward produced by `step` is either `0` or the goal-success value
`1 - 0.9 * ((step_count + 1) / max_steps)`. -/
theorem step_reward_cases (s : EnvState) (a : Actions) (out : EnvState × ℚ × Bool)
    (hstep : s.step a = some out) :
    out.2.1 = 0 ∨ out.2.1 = 1 - (9 / 10 : ℚ) *
      (((s.step_count + 1 : ℕ) : ℚ) / ((s.max_steps : ℕ) : ℚ)) := by
  cases a <;>
    (simp only [EnvState.step] at hstep
     repeat' split at hstep) <;>
    (try exact Option.noConfusion hstep) <;>
    (rw [Option.some_inj] at hstep; subst hstep) <;>
    simp [EnvState.reward_value]

/-- `step` always increments the step counter by exactly one and never
changes `max_steps`. -/
theorem step_post_counters (s : EnvState) (a : Actions) (out : EnvState × ℚ × Bool)
    (hstep : s.step a = some out) :
    out.1.step_count = s.step_count + 1 ∧ out.1.max_steps = s.max_steps := by
  cases a <;>
    (simp only [EnvState.step] at hstep
     repeat' split at hstep) <;>
    (try exact Option.noConfusion hstep) <;>
    (rw [Option.some_inj] at hstep; subst hstep) <;>
    simp

/-- When the incremented step counter reaches `max_steps`, `step` reports
termination regardless of the action taken. -/
theorem step_done_of_limit (s : EnvState) (a : Actions) (out : EnvState × ℚ × Bool)
    (hstep : s.step a = some out) (hm : s.max_steps ≤ s.step_count + 1) :
    out.2.2 = true := by
  cases a <;>
    (simp only [EnvState.step] at hstep
     repeat' split at hstep) <;>
    (try exact Option.noConfusion hstep) <;>
    (rw [Option.some_inj] at hstep; subst hstep) <;>
    simp [hm]

/-- C2: at every state where the episode is still active
(`step_count < max_steps` — once the counter reaches `max_steps` the episode
has reported `done` and the caller stops) and for every action, the reward
returned by `step` lies in the closed interval `[0, 1]`. -/
theorem step_reward_in_range (s : EnvState) (a : Actions) (out : EnvState × ℚ × Bool)
    (hact : s.step_count < s.max_steps)
    (hstep : s.step a = some out) :
    0 ≤ out.2.1 ∧ out.2.1 ≤ 1 := by
  rcases step_reward_cases s a out hstep with h | h
  · rw [h]; constructor <;> norm_num
  · rw [h]
    have hm : (0 : ℚ) < ((s.max_steps : ℕ) : ℚ) := by
      exact_mod_cast Nat.pos_of_ne_zero (by omega)
    have hq1 : ((s.step_count + 1 : ℕ) : ℚ) / ((s.max_steps : ℕ) : ℚ) ≤ 1 := by
      rw [div_le_one hm]
      exact_mod_cast (by omega : s.step_count + 1 ≤ s.max_steps)
    have hq0 : 0 ≤ ((s.step_count + 1 : ℕ) : ℚ) / ((s.max_steps : ℕ) : ℚ) := by
      positivity
    constructor <;> linarith

/-- Witness for `step_reward_in_range` (claim C2) at a concrete state. -/
theorem step_reward_in_range_witness :
    sGoal.step_count < sGoal.max_steps ∧
    sGoal.step .forward =
      some ({ sGoal with agent_pos := (2, 1), step_count := 1 },
        1 - (9 / 10 : ℚ) * (((1 : ℕ) : ℚ) / ((100 : ℕ) : ℚ)), true) ∧
    (0 ≤ 1 - (9 / 10 : ℚ) * (((1 : ℕ) : ℚ) / ((100 : ℕ) : ℚ)) ∧
      1 - (9 / 10 : ℚ) * (((1 : ℕ) : ℚ) / ((100 : ℕ) : ℚ)) ≤ 1) := by
  have hs : sGoal.step .forward =
      some ({ sGoal with agent_pos := (2, 1), step_count := 1 },
        1 - (9 / 10 : ℚ) * (((1 : ℕ) : ℚ) / ((100 : ℕ) : ℚ)), true) := rfl
  exact ⟨by decide, hs, step_reward_in_range sGoal .forward _ (by decide) hs⟩

/-- The `done` flag returned by the last of a sequence of `step` calls;
`none` when the sequence is empty or some call fails (out-of-bounds front
cell). -/
def EnvState.lastDone (s : EnvState) : List Actions → Option Bool
  | [] => none
  | a :: rest =>
    match s.step a with
    | none => none
    | some out =>
      match rest with
      | [] => some out.2.2
      | _ :: _ => out.1.lastDone rest

/-- Any run whose length brings the step counter exactly to `max_steps`
ends with `done = true`. -/
theorem lastDone_true (acts : List Actions) : ∀ (s : EnvState),
    acts ≠ [] → s.step_count + acts.length = s.max_steps →
    ∀ b, s.lastDone acts = some b → b = true := by
  induction acts with
  | nil => intro s hne _; exact absurd rfl hne
  | cons a rest ih =>
    intro s _ hlen b hb
    cases rest with
    | nil =>
      simp only [EnvState.lastDone] at hb
      rcases ho : s.step a with _ | out
      · rw [ho] at hb; exact Option.noConfusion hb
      · rw [ho] at hb
        rw [Option.some_inj] at hb
        subst hb
        exact step_done_of_limit s a out ho (by simp at hlen; omega)
    | cons a2 rest2 =>
      simp only [EnvState.lastDone] at hb
      rcases ho : s.step a with _ | out
      · rw [ho] at hb; exact Option.noConfusion hb
      · rw [ho] at hb
        have hc := step_post_counters s a out ho
        refine ih out.1 (by simp) ?_ b hb
        simp only [List.length_cons] at hlen ⊢
        omega

/-- C3: from a freshly reset state (`step_count = 0`), any action sequence
of length `max_steps` whose calls all succeed ends with the termination
flag true — the incremented counter reaching `max_steps` forces `done`
regardless of the actions taken. -/
theorem episode_terminates_by_max_steps (s : EnvState) (acts : List Actions)
    (h0 : s.step_count = 0)
    (hlen : acts.length = s.max_steps)
    (hpos : 0 < s.max_steps) :
    ∀ b, s.lastDone acts = some b → b = true := by
  apply lastDone_true
  · intro h
    subst h
    simp only [List.length_nil] at hlen
    omega
  · omega

/-- A copy of `sGoal` with a two-step episode budget. -/
def sTwo : EnvState := { sGoal with max_steps := 2 }

/-- Witness for `episode_terminates_by_max_steps` (claim C3): a concrete
two-action run that reaches the step limit and reports `done = true`. -/
theorem episode_terminates_by_max_steps_witness :
    sTwo.step_count = 0 ∧
    [Actions.left, Actions.left].length = sTwo.max_steps ∧
    0 < sTwo.max_steps ∧
    sTwo.lastDone [Actions.left, Actions.left] = some true ∧
    (∀ b, sTwo.lastDone [Actions.left, Actions.left] = some b → b = true) :=
  ⟨rfl, rfl, by decide, rfl,
    fun b hb => episode_terminates_by_max_steps sTwo [Actions.left, Actions.left]
      rfl rfl (by decide) b hb⟩

/-! ### Observation generation (C9, C10) -/

/-- Rotating a square `AGENT_VIEW_SIZE`-sized grid any number of times keeps
its dimensions and dense cell-array length. -/
theorem rotateN_dims (g : Grid) (n : Nat)
    (hw : g.width = AGENT_VIEW_SIZE) (hh : g.height = AGENT_VIEW_SIZE)
    (hl : g.cells.length = AGENT_VIEW_SIZE * AGENT_VIEW_SIZE) :
    (g.rotateN n).width = AGENT_VIEW_SIZE ∧
    (g.rotateN n).height = AGENT_VIEW_SIZE ∧
    (g.rotateN n).cells.length = AGENT_VIEW_SIZE * AGENT_VIEW_SIZE := by
  induction n with
  | zero => exact ⟨hw, hh, hl⟩
  | succ n ih =>
    obtain ⟨w1, h1, l1⟩ := ih
    refine ⟨?_, ?_, ?_⟩ <;>
      simp [Grid.rotateN, Grid.rotate_left, w1, h1]

/-- C9: with `see_through_walls = true`, the visibility mask produced by
`gen_obs_grid` is all-true at every cell, regardless of the grid's
contents. -/
theorem gen_obs_grid_mask_all_true (s : EnvState)
    (h : s.see_through_walls = true) (i j : Nat) :
    (s.gen_obs_grid).2 i j = true := by
  simp only [EnvState.gen_obs_grid, h]
  simp

/-- A copy of `sGoal` with occlusion masking disabled. -/
def sSee : EnvState := { sGoal with see_through_walls := true }

/-- Witness for `gen_obs_grid_mask_all_true` (claim C9) at a concrete
state and cell. -/
theorem gen_obs_grid_mask_all_true_witness :
    sSee.see_through_walls = true ∧ (sSee.gen_obs_grid).2 0 0 = true :=
  ⟨rfl, gen_obs_grid_mask_all_true sSee rfl 0 0⟩

/-- C10: in every observation grid produced by `gen_obs_grid`, the agent's
fixed in-view slot `(view_width / 2, view_height - 1)` of the rotated view
holds exactly the carried object when the inventory is non-empty and is
empty otherwise; the world grid's content at the agent's actual position is
always overwritten and never appears there. -/
theorem gen_obs_grid_agent_slot (s : EnvState) :
    (s.gen_obs_grid).1.get ((AGENT_VIEW_SIZE : Int) / 2)
      ((AGENT_VIEW_SIZE : Int) - 1) = some s.carrying := by
  obtain ⟨hw, hh, hl⟩ :=
    rotateN_dims
      (s.grid.slice s.get_view_exts.1 s.get_view_exts.2.1
        AGENT_VIEW_SIZE AGENT_VIEW_SIZE)
      (s.agent_dir + 1) rfl rfl (by simp [Grid.slice])
  simp only [EnvState.gen_obs_grid]
  generalize hG :
      (s.grid.slice s.get_view_exts.1 s.get_view_exts.2.1
        AGENT_VIEW_SIZE AGENT_VIEW_SIZE).rotateN (s.agent_dir + 1) = G at hw hh hl ⊢
  have hbounds : (0 : Int) ≤ (AGENT_VIEW_SIZE : Int) / 2 ∧
      (AGENT_VIEW_SIZE : Int) / 2 < (G.width : Int) ∧
      (0 : Int) ≤ (AGENT_VIEW_SIZE : Int) - 1 ∧
      (AGENT_VIEW_SIZE : Int) - 1 < (G.height : Int) := by
    rw [hw, hh]; norm_num [AGENT_VIEW_SIZE]
  have hv : ∃ v, G.get ((AGENT_VIEW_SIZE : Int) / 2)
      ((AGENT_VIEW_SIZE : Int) - 1) = some v :=
    ⟨_, by rw [Grid.get, if_pos hbounds]⟩
  obtain ⟨v, hv⟩ := hv
  have hlen : G.cells.length = G.width * G.height := by rw [hw, hh, hl]
  rw [hw, hh]
  rcases hc : s.carrying with _ | c <;> simp only [hc] <;>
    exact Grid.get_set_self G _ hlen hv
